import Mathlib

/-!
Verification of the regime-aware market-making simulator.

Shallow embedding of the repository's core modules:
  * `src/src/mm_engine.py`   — quoting, fill model, per-step state machine
  * `src/src/price_process.py` — Markov regime chain and regime-switching GBM
  * `src/src/simulator.py`   — the stepping loop `run_mm_on_path`

Prices, probabilities and the cash/inventory state are modelled as real
numbers.  The injected random source (`numpy.random.Generator`) is modelled
as explicit streams of draws: a stream `rng : ℕ → ℝ` of uniform variates for
the fill decisions (the engine consumes one draw per attempted side, indexed
by a running counter, exactly as the Python generator is consumed
sequentially), a stream `choice : ℕ → ℕ` whose value at `t`, reduced modulo
the number of states, is the categorical draw for the regime transition at
step `t` (any in-range value, as `Generator.choice(n, p=row)` returns an
index in `[0, n)`), and a stream `normal : ℕ → ℝ` of standard-normal
variates.  Python exceptions are modelled with `Except`: `ValueError` raised
by the transition-matrix/start-state validation is `MMError.validationError`,
the `ValueError` raised for an unrecognized kill-switch mode is
`MMError.configurationError` (the spec's `ConfigurationError`), a Python
`TypeError` is `MMError.typeError`, and a numpy `IndexError` from an
out-of-range fancy index is `MMError.indexError`.  The float `nan` sentinel
returned by `quote_prices` in pause mode is modelled by `Option`: `none`
stands for the `(nan, nan, False)` triple, `some (bid, ask)` for an enabled
quote pair.
-/

/-- Errors raised by the embedded code, mirroring the Python exceptions. -/
inductive MMError where
  | validationError
  | configurationError
  | typeError
  | indexError
deriving DecidableEq, Repr

/-- Market-maker parameters, mirroring the `MMParams` dataclass of
`mm_engine.py` field for field, with the same defaults.  `kill_switch_mode`
is `Option String` because the Python field holds either `None` or a string
compared literally against `"pause"` and `"widen"`. -/
structure MMParams where
  spread_bps_low : ℝ := 8.0
  spread_bps_med : ℝ := 12.0
  spread_bps_high : ℝ := 25.0
  skew_bps_per_unit : ℝ := 2.0
  base_fill_prob : ℝ := 0.20
  kappa : ℝ := 1.5
  inv_cap : ℝ := 3.0
  kill_switch_regime : ℤ := 2
  kill_switch_mode : Option String := some "pause"
  adverse_selection : Bool := true
  tox_med : ℝ := 1.3
  tox_high : ℝ := 2.0

/-- The mutable per-run state, mirroring the `MMState` dataclass. -/
structure MMState where
  cash : ℝ
  inv : ℝ

/-- The `MMParams()` instance with all defaults, as constructed by the
Python dataclass with no arguments. -/
def defaultMMParams : MMParams := {}

/-- Mirrors `spread_bps_for_regime` of `mm_engine.py`: regime 0 gets the low
spread, regime 1 the medium spread, anything else the high spread. -/
def spread_bps_for_regime (params : MMParams) (regime : ℤ) : ℝ :=
  if regime = 0 then params.spread_bps_low
  else if regime = 1 then params.spread_bps_med
  else params.spread_bps_high

/-- The quote computation at the end of `quote_prices` (`mm_engine.py` lines
67–76): spread and skew in price units, bid shifted down by the full skew,
ask shifted by half the skew. -/
noncomputable def quote_pair (mid : ℝ) (st : MMState) (params : MMParams) (spread_bps : ℝ) : ℝ × ℝ :=
  let spread := mid * (spread_bps / 10000)
  let skew := mid * (params.skew_bps_per_unit / 10000) * st.inv
  (mid - spread / 2 - skew, mid + spread / 2 - 0.5 * skew)

/-- Mirrors `quote_prices` of `mm_engine.py`.  `.ok none` encodes the Python
return `(nan, nan, False)` of pause mode (quoting disabled); `.ok (some
(bid, ask))` encodes an enabled `(bid, ask, True)` return.  The
`ValueError("kill_switch_mode must be None, 'pause', or 'widen'")` raise is
`.error .configurationError`.  Note that, as in the source, the mode string
is only inspected when `kill_switch_mode` is not `None` AND
`regime >= kill_switch_regime`. -/
noncomputable def quote_prices (mid : ℝ) (regime : ℤ) (st : MMState) (params : MMParams) :
    Except MMError (Option (ℝ × ℝ)) :=
  let spread_bps := spread_bps_for_regime params regime
  match params.kill_switch_mode with
  | none => .ok (some (quote_pair mid st params spread_bps))
  | some mode =>
    if params.kill_switch_regime ≤ regime then
      if mode = "pause" then .ok none
      else if mode = "widen" then .ok (some (quote_pair mid st params (max spread_bps 80.0)))
      else .error .configurationError
    else .ok (some (quote_pair mid st params spread_bps))

/-- Mirrors `fill_probability` of `mm_engine.py`: fractional distance of the
quote from mid, exponential decay scaled by `10_000.0 / 10.0`, result
clipped to `[0, 1]` (`np.clip(p, 0.0, 1.0)`). -/
noncomputable def fill_probability (mid quote : ℝ) (params : MMParams) : ℝ :=
  let dist := |quote - mid| / mid
  let p := params.base_fill_prob * Real.exp (-params.kappa * dist * 10000 / 10)
  min (max p 0) 1

/-- The regime-dependent toxicity multiplier computed inline in `step_mm`
(`mm_engine.py` lines 114–118 and 137–141): `tox = 1.0`, overridden to
`tox_high` when `regime == 2` and to `tox_med` when `regime == 1`.  Note the
source tests `regime == 2`, not `regime >= 2`. -/
def toxicity (params : MMParams) (regime : ℤ) : ℝ :=
  if regime = 2 then params.tox_high
  else if regime = 1 then params.tox_med
  else 1

/-- The bid-side adverse-selection adjustment inline in `step_mm`
(lines 112–121): inside the `adverse_selection` block, if the realized next
return is negative the bid fill probability becomes `min(0.95, p * tox)`. -/
noncomputable def adjust_bid (adverse : Bool) (ret_next tox p : ℝ) : ℝ :=
  if adverse then (if ret_next < 0 then min 0.95 (p * tox) else p) else p

/-- The ask-side adverse-selection adjustment inline in `step_mm`
(lines 135–144): if the realized next return is positive the ask fill
probability becomes `min(0.95, p * tox)`. -/
noncomputable def adjust_ask (adverse : Bool) (ret_next tox p : ℝ) : ℝ :=
  if adverse then (if ret_next > 0 then min 0.95 (p * tox) else p) else p

/-- Fill outcome of one step: the Python strings `"buy"`, `"sell"`,
`"buy+sell"`; `Option Fill` with `none` for Python `None`. -/
inductive Fill where
  | buy
  | sell
  | buySell
deriving DecidableEq, Repr

/-- The per-step record returned by `step_mm`: `{"bid": …, "ask": …,
"filled": …}`, with `none` in `bid`/`ask` standing for `np.nan`. -/
structure StepRecord where
  bid : Option ℝ
  ask : Option ℝ
  filled : Option Fill

/-- The buy leg of `step_mm` (lines 107–126).  Admission `can_buy` is
`st.inv < params.inv_cap`; when admitted, one uniform draw `rng k` is
consumed and a fill updates cash and inventory.  Returns (new state,
buy-filled flag, next rng index). -/
noncomputable def buy_leg (mid bid ret_next tox : ℝ) (st : MMState) (params : MMParams)
    (rng : ℕ → ℝ) (k : ℕ) : MMState × Bool × ℕ :=
  if st.inv < params.inv_cap then
    if rng k < adjust_bid params.adverse_selection ret_next tox (fill_probability mid bid params)
    then ({ cash := st.cash - bid, inv := st.inv + 1 }, true, k + 1)
    else (st, false, k + 1)
  else (st, false, k)

/-- The sell leg of `step_mm` (lines 130–149).  As in the source, the
admission `can_sell` is computed from the inventory `st0.inv` as it was
BEFORE the buy leg (line 102 precomputes both admissions), while the fill
mutates `st1`, the state after the buy leg. -/
noncomputable def sell_leg (mid ask ret_next tox : ℝ) (st0 st1 : MMState) (params : MMParams)
    (rng : ℕ → ℝ) (k1 : ℕ) : MMState × Bool × ℕ :=
  if -params.inv_cap < st0.inv then
    if rng k1 < adjust_ask params.adverse_selection ret_next tox (fill_probability mid ask params)
    then ({ cash := st1.cash + ask, inv := st1.inv - 1 }, true, k1 + 1)
    else (st1, false, k1 + 1)
  else (st1, false, k1)

/-- Mirrors `step_mm` of `mm_engine.py` (lines 89–151).  In place of the
Python in-place mutation of `st`, the updated state is returned together
with the step record and the index of the next unconsumed uniform draw. -/
noncomputable def step_mm (mid mid_next : ℝ) (regime : ℤ) (st : MMState) (params : MMParams)
    (rng : ℕ → ℝ) (k : ℕ) : Except MMError (StepRecord × MMState × ℕ) :=
  match quote_prices mid regime st params with
  | .error e => .error e
  | .ok none => .ok ({ bid := none, ask := none, filled := none }, st, k)
  | .ok (some (bid, ask)) =>
    let ret_next := if params.adverse_selection then (mid_next - mid) / mid else 0
    let tox := toxicity params regime
    let b := buy_leg mid bid ret_next tox st params rng k
    let s := sell_leg mid ask ret_next tox st b.1 params rng b.2.2
    let filled : Option Fill :=
      match b.2.1, s.2.1 with
      | true, true => some Fill.buySell
      | true, false => some Fill.buy
      | false, true => some Fill.sell
      | false, false => none
    .ok ({ bid := some bid, ask := some ask, filled := filled }, s.1, s.2.2)

/-- Iterated application of `step_mm` over a list of
`(mid, mid_next, regime)` triples, threading the state and the rng index:
the stepping discipline of the spec's state machine, used to express
reachability of states of one simulation run. -/
noncomputable def run_steps (steps : List (ℝ × ℝ × ℤ)) (params : MMParams) (rng : ℕ → ℝ)
    (st : MMState) (k : ℕ) : Except MMError (MMState × ℕ) :=
  match steps with
  | [] => .ok (st, k)
  | (mid, mid_next, regime) :: rest =>
    match step_mm mid mid_next regime st params rng k with
    | .error e => .error e
    | .ok (_, st', k') => run_steps rest params rng st' k'

/-- The per-step output arrays built by `run_mm_on_path`
(`simulator.py` lines 41–65): inventory, cash, mark-to-market equity and the
quoting-enabled mask.  The function returns exactly this dict — it has no
field for the final `(cash, inventory)` state. -/
structure RunOutput where
  inventory : List ℝ
  cash : List ℝ
  equity : List ℝ
  quoted : List Bool

/-- Mirrors `run_mm_on_path` of `simulator.py` (lines 35–65) as it actually
executes.  The loop body (line 50) invokes `step_mm(mid, regime, state,
mm_params, rng)` with five positional arguments, while `step_mm`
(`mm_engine.py` line 89) requires six: `(mid, mid_next, regime, st, params,
rng)`, none optional.  In Python the very first loop iteration therefore
raises `TypeError: step_mm() missing 1 required positional argument` before
any state mutation, so for `n_steps = len(regimes) ≥ 1` the call fails; only
for `n_steps = 0` does the loop body never run and the four empty arrays are
returned. -/
def run_mm_on_path (prices : List ℝ) (regimes : List ℤ) (mm_params : MMParams)
    (rng : ℕ → ℝ) : Except MMError RunOutput :=
  if regimes.length = 0 then
    .ok { inventory := [], cash := [], equity := [], quoted := [] }
  else .error .typeError

/-- Price-process parameters, mirroring the `MSGBMParams` frozen dataclass
of `price_process.py`, with the same defaults.  The transition matrix is a
list of rows. -/
structure MSGBMParams where
  dt_minutes : ℝ := 1.0
  s0 : ℝ := 100.0
  mu_annual : ℝ := 0.0
  sigmas_annual : List ℝ := [0.40, 0.80, 1.60]
  transition : List (List ℝ) := [[0.97, 0.03, 0.00], [0.02, 0.96, 0.02], [0.00, 0.03, 0.97]]

/-- Mirrors `_validate_transition` of `price_process.py`: the matrix must be
a square 2-D array (every row as long as the number of rows, and at least
one row), every row sum must satisfy `np.allclose(row_sums, 1.0, atol=1e-8)`
— elementwise `|s - 1| ≤ atol + rtol·|1.0|` with numpy's default
`rtol = 1e-5` — and every entry must be non-negative.  Each violation raises
`ValueError`, modelled as `.error .validationError`. -/
noncomputable def validate_transition (P : List (List ℝ)) : Except MMError Unit :=
  if P.length = 0 ∨ ¬ (∀ row ∈ P, row.length = P.length) then .error .validationError
  else if ¬ (∀ row ∈ P, |row.sum - 1| ≤ 1 / 100000000 + 1 / 100000 * 1) then
    .error .validationError
  else if ¬ (∀ row ∈ P, ∀ x ∈ row, 0 ≤ x) then .error .validationError
  else .ok ()

/-- The chain state at time `t` in the loop of `sample_regimes`: the start
state at `t = 0`, and afterwards the categorical draw made at step `t - 1`.
`Generator.choice(n_states, p=transition[s])` always returns an index in
`[0, n_states)`; the draw is modelled as the injected value `choice (t - 1)`
reduced modulo `n_states`, i.e. an arbitrary in-range index chosen by the
random source. -/
def chain_state (start_state n_states : ℕ) (choice : ℕ → ℕ) : ℕ → ℕ
  | 0 => start_state
  | t + 1 => choice t % n_states

/-- Mirrors `sample_regimes` of `price_process.py`: validate the matrix,
check `start_state` is a valid row index (raising `ValueError` otherwise),
then emit `states[t]` = chain state at time `t` for `t = 0..n_steps-1`. -/
noncomputable def sample_regimes (n_steps : ℕ) (transition : List (List ℝ))
    (start_state : ℕ) (choice : ℕ → ℕ) : Except MMError (List ℕ) :=
  match validate_transition transition with
  | .error e => .error e
  | .ok _ =>
    let n_states := transition.length
    if start_state < n_states then
      .ok ((List.range n_steps).map (chain_state start_state n_states choice))
    else .error .validationError

/-- Mirrors `simulate_markov_switching_gbm` of `price_process.py` (lines
61–101).  The regime path comes from `sample_regimes`; the state-aligned
volatilities are `sigmas_annual[states]` (numpy fancy indexing, which raises
`IndexError` when some state is out of range of the volatility tuple —
modelled as `.error .indexError`); `dt` is `dt_minutes` over the minutes in
a year; the log-return of step `t` is `(mu - 0.5·σ_t²)·dt + σ_t·√dt·Z_t`;
and the price path is `s0` followed by `s0 · exp(cumsum(log_returns))`, so
`prices[j+1] = s0 · exp(Σ_{i≤j} log_return_i)` and `prices` has length
`n_steps + 1`. -/
noncomputable def simulate_markov_switching_gbm (n_steps : ℕ) (params : MSGBMParams)
    (start_state : ℕ) (choice : ℕ → ℕ) (normal : ℕ → ℝ) :
    Except MMError (List ℝ × List ℕ × List ℝ) :=
  match sample_regimes n_steps params.transition start_state choice with
  | .error e => .error e
  | .ok states =>
    if ¬ (∀ s ∈ states, s < params.sigmas_annual.length) then .error .indexError
    else
      let sigmas_step := states.map (fun s => params.sigmas_annual.getD s 0)
      let dt := params.dt_minutes / (365.0 * 24.0 * 60.0)
      let log_return : ℕ → ℝ := fun t =>
        let sigma := sigmas_step.getD t 0
        (params.mu_annual - 0.5 * sigma ^ 2) * dt + sigma * Real.sqrt dt * normal t
      let prices := params.s0 :: (List.range n_steps).map
        (fun j => params.s0 * Real.exp (∑ i ∈ Finset.range (j + 1), log_return i))
      .ok (prices, states, sigmas_step)

/-- An `MMParams` with an unrecognized kill-switch mode string. -/
def bogusModeParams : MMParams := { kill_switch_mode := some "bogus" }

/-- Parameters exercising the fill path with exactly computable values:
probability 1, no decay, no kill switch, no adverse selection. -/
def plainFillParams : MMParams :=
  { base_fill_prob := 1.0, kappa := 0.0, kill_switch_mode := none, adverse_selection := false }

/-- Parameters with a positive but non-integer inventory cap 5/2, no kill
switch, no adverse selection, fill probability 1 and no decay, so the buy
side always fills when admitted. -/
def fracCapParams : MMParams :=
  { base_fill_prob := 1.0, kappa := 0.0, inv_cap := 2.5, kill_switch_mode := none,
    adverse_selection := false }

/-- Uniform stream: 0 on even indices (buy draws fill), 1 on odd indices
(sell draws never fill). -/
noncomputable def altStream : ℕ → ℝ := fun t => if t % 2 = 0 then 0 else 1

/-- A one-regime parameter set with the 1×1 identity transition matrix. -/
def unitMSGBMParams : MSGBMParams :=
  { dt_minutes := 1.0, s0 := 100.0, mu_annual := 0.0, sigmas_annual := [0.40],
    transition := [[1.0]] }

/-- The same one-regime parameter set with a negative initial price. -/
def negStartMSGBMParams : MSGBMParams :=
  { dt_minutes := 1.0, s0 := -1.0, mu_annual := 0.0, sigmas_annual := [0.40],
    transition := [[1.0]] }

/-- C10: with the default parameters, regime 0, zero cash and inventory −3,
the bid quoted around mid 100 is 100.02, strictly above the mid: the
ordering `bid ≤ mid ≤ ask` is not an invariant of `quote_prices`. -/
theorem quote_prices_bid_above_mid :
    quote_prices 100 0 ⟨0, -3⟩ defaultMMParams
      = .ok (some (10002 / 100, 10007 / 100)) ∧ (100 : ℝ) < 10002 / 100 := by
  constructor
  · norm_num [quote_prices, quote_pair, spread_bps_for_regime, defaultMMParams]
  · norm_num

/-- C2: `run_mm_on_path` does not complete a run: because its loop body
passes five positional arguments to the six-parameter `step_mm` (omitting
`mid_next`), the first step raises `TypeError`.  Evaluated here at a
one-step path. -/
theorem run_mm_on_path_first_step_fails :
    run_mm_on_path [100, 100] [0] defaultMMParams (fun _ => 0) = .error .typeError := rfl

/-- C9: determinism as two-run equality — with the same parameters and the
same injected random-source streams, `simulate_markov_switching_gbm`
produces the identical (price path, regime path, volatility) triple, and
the market-maker stepping (`step_mm`, and the `run_mm_on_path` loop)
produces identical step results. -/
theorem determinism_identical_seeds (n_steps : ℕ) (pparams : MSGBMParams) (start_state : ℕ)
    (choice1 choice2 : ℕ → ℕ) (normal1 normal2 rng1 rng2 : ℕ → ℝ)
    (prices : List ℝ) (regimes : List ℤ) (mparams : MMParams)
    (mid mid_next : ℝ) (regime : ℤ) (st : MMState) (k : ℕ)
    (hc : ∀ t, choice1 t = choice2 t) (hz : ∀ t, normal1 t = normal2 t)
    (hr : ∀ t, rng1 t = rng2 t) :
    simulate_markov_switching_gbm n_steps pparams start_state choice1 normal1 =
      simulate_markov_switching_gbm n_steps pparams start_state choice2 normal2 ∧
    step_mm mid mid_next regime st mparams rng1 k =
      step_mm mid mid_next regime st mparams rng2 k ∧
    run_mm_on_path prices regimes mparams rng1 = run_mm_on_path prices regimes mparams rng2 := by
  obtain rfl : choice1 = choice2 := funext hc
  obtain rfl : normal1 = normal2 := funext hz
  obtain rfl : rng1 = rng2 := funext hr
  exact ⟨rfl, rfl, rfl⟩

/-- Witness for C9 at concrete inputs: both runs use the all-zero streams. -/
theorem determinism_identical_seeds_witness :
    simulate_markov_switching_gbm 5 {} 0 (fun _ => 0) (fun _ => 0) =
      simulate_markov_switching_gbm 5 {} 0 (fun _ => 0) (fun _ => 0) ∧
    step_mm 100 100 0 ⟨0, 0⟩ defaultMMParams (fun _ => 0) 0 =
      step_mm 100 100 0 ⟨0, 0⟩ defaultMMParams (fun _ => 0) 0 ∧
    run_mm_on_path [100] [0] defaultMMParams (fun _ => 0) =
      run_mm_on_path [100] [0] defaultMMParams (fun _ => 0) :=
  determinism_identical_seeds 5 {} 0 (fun _ => 0) (fun _ => 0) (fun _ => 0) (fun _ => 0)
    (fun _ => 0) (fun _ => 0) [100] [0] defaultMMParams 100 100 0 ⟨0, 0⟩ 0
    (fun _ => rfl) (fun _ => rfl) (fun _ => rfl)

/-- C7: with kill-switch mode `"pause"` and regime at or above the
threshold, `quote_prices` returns the disabled sentinel (`(nan, nan,
False)`, encoded `.ok none`) and `step_mm` returns a record with both
quotes `nan` and no fill, leaving cash, inventory and the random stream
untouched. -/
theorem pause_mode_freezes_state (mid mid_next : ℝ) (regime : ℤ) (st : MMState)
    (params : MMParams) (rng : ℕ → ℝ) (k : ℕ)
    (hmode : params.kill_switch_mode = some "pause")
    (hreg : params.kill_switch_regime ≤ regime) :
    quote_prices mid regime st params = .ok none ∧
    step_mm mid mid_next regime st params rng k =
      .ok ({ bid := none, ask := none, filled := none }, st, k) := by
  have hq : quote_prices mid regime st params = .ok none := by
    simp [quote_prices, hmode, hreg]
  exact ⟨hq, by simp [step_mm, hq]⟩

/-- Witness for C7: the default parameters (mode `"pause"`, threshold 2) at
regime 2. -/
theorem pause_mode_freezes_state_witness :
    quote_prices 100 2 ⟨0, 0⟩ defaultMMParams = .ok none ∧
    step_mm 100 100 2 ⟨0, 0⟩ defaultMMParams (fun _ => 0) 0 =
      .ok ({ bid := none, ask := none, filled := none }, ⟨0, 0⟩, 0) :=
  pause_mode_freezes_state 100 100 2 ⟨0, 0⟩ defaultMMParams (fun _ => 0) 0 rfl (by decide)

/-- C5 fails as stated: with the unrecognized mode `"bogus"` but regime 0
below the threshold 2, `quote_prices` does not raise — it returns ordinary
quotes, because the source only inspects the mode string when
`regime >= kill_switch_regime`. -/
theorem invalid_mode_unchecked_below_threshold :
    bogusModeParams.kill_switch_mode = some "bogus" ∧
    quote_prices 100 0 ⟨0, 0⟩ bogusModeParams = .ok (some (9996 / 100, 10004 / 100)) := by
  refine ⟨rfl, ?_⟩
  norm_num [quote_prices, quote_pair, spread_bps_for_regime, bogusModeParams]

/-- C5 amended: an unrecognized kill-switch mode raises the configuration
error exactly when the regime is at or above the threshold; below the
threshold the invalid mode goes undetected and quoting proceeds normally. -/
theorem invalid_mode_raises_only_at_threshold (mid : ℝ) (regime : ℤ) (st : MMState)
    (params : MMParams) (m : String) (hm : params.kill_switch_mode = some m) :
    (params.kill_switch_regime ≤ regime → m ≠ "pause" → m ≠ "widen" →
      quote_prices mid regime st params = .error .configurationError) ∧
    (regime < params.kill_switch_regime →
      quote_prices mid regime st params =
        .ok (some (quote_pair mid st params (spread_bps_for_regime params regime)))) := by
  constructor
  · intro hle hp hw
    simp [quote_prices, hm, hle, hp, hw]
  · intro hlt
    simp [quote_prices, hm, not_le.mpr hlt]

/-- Witness for the amended C5: mode `"bogus"`, raising at regime 2 and
quoting normally at regime 0. -/
theorem invalid_mode_raises_only_at_threshold_witness :
    quote_prices 100 2 ⟨0, 0⟩ bogusModeParams = .error .configurationError ∧
    quote_prices 100 0 ⟨0, 0⟩ bogusModeParams =
      .ok (some (quote_pair 100 ⟨0, 0⟩ bogusModeParams (spread_bps_for_regime bogusModeParams 0))) :=
  ⟨(invalid_mode_raises_only_at_threshold 100 2 ⟨0, 0⟩ bogusModeParams "bogus" rfl).1
      (by decide) (by decide) (by decide),
    (invalid_mode_raises_only_at_threshold 100 0 ⟨0, 0⟩ bogusModeParams "bogus" rfl).2
      (by decide)⟩

/-- C3 fails as stated: the source tests `regime == 2`, not `regime >= 2`,
so at regime 3 the toxicity multiplier is 1, not `tox_high` (= 2 by
default). -/
theorem toxicity_not_applied_to_regime_three :
    toxicity defaultMMParams 3 = 1 ∧ defaultMMParams.tox_high = 2 ∧ (1 : ℝ) < 2 := by
  norm_num [toxicity, defaultMMParams]

/-- C3 amended: the toxicity multiplier is 1 for regime 0, `tox_med` for
regime 1, `tox_high` for regime 2 exactly (1 for every other regime,
including regimes above 2); when the realized next-step return is negative
the bid-side probability becomes `min(0.95, p·τ)` — hence never exceeds
0.95 — and is untouched otherwise; symmetrically for the ask side with a
positive return. -/
theorem adverse_selection_scaling (params : MMParams) :
    toxicity params 0 = 1 ∧
    toxicity params 1 = params.tox_med ∧
    toxicity params 2 = params.tox_high ∧
    (∀ r : ℤ, r ≠ 1 → r ≠ 2 → toxicity params r = 1) ∧
    (∀ ret tox p : ℝ, ret < 0 →
      adjust_bid true ret tox p = min 0.95 (p * tox) ∧ adjust_bid true ret tox p ≤ 0.95) ∧
    (∀ ret tox p : ℝ, 0 ≤ ret → adjust_bid true ret tox p = p) ∧
    (∀ ret tox p : ℝ, 0 < ret →
      adjust_ask true ret tox p = min 0.95 (p * tox) ∧ adjust_ask true ret tox p ≤ 0.95) ∧
    (∀ ret tox p : ℝ, ret ≤ 0 → adjust_ask true ret tox p = p) := by
  refine ⟨by norm_num [toxicity], by norm_num [toxicity], by norm_num [toxicity],
    ?_, ?_, ?_, ?_, ?_⟩
  · intro r h1 h2
    simp [toxicity, h1, h2]
  · intro ret tox p hret
    exact ⟨by simp [adjust_bid, hret], by simp [adjust_bid, hret, min_le_left]⟩
  · intro ret tox p hret
    simp [adjust_bid, not_lt.mpr hret]
  · intro ret tox p hret
    exact ⟨by simp [adjust_ask, hret], by simp [adjust_ask, hret, min_le_left]⟩
  · intro ret tox p hret
    simp [adjust_ask, not_lt.mpr hret]

/-- Witness for the amended C3: regime 5 gets multiplier 1, and a scaled
bid probability stays below 0.95 even with probability 1 and a toxicity of
100. -/
theorem adverse_selection_scaling_witness :
    toxicity defaultMMParams 5 = 1 ∧ adjust_bid true (-1) 100 1 ≤ 0.95 :=
  ⟨(adverse_selection_scaling defaultMMParams).2.2.2.1 5 (by decide) (by decide),
    ((adverse_selection_scaling defaultMMParams).2.2.2.2.1 (-1) 100 1 (by norm_num)).2⟩

/-- Helper: the only error `quote_prices` can produce is the
configuration error for an unrecognized kill-switch mode. -/
theorem quote_prices_error_elim (mid : ℝ) (regime : ℤ) (st : MMState) (params : MMParams)
    (e : MMError) (h : quote_prices mid regime st params = .error e) :
    e = .configurationError := by
  unfold quote_prices at h
  rcases hm : params.kill_switch_mode with _ | m
  · simp [hm] at h
  · simp only [hm] at h
    split_ifs at h with h1 h2 h3 <;>
      first
      | exact Except.noConfusion h
      | · injection h with h
          exact h.symm

/-- C4 fails as stated: at the negative mid −1 (with no kill switch and no
adverse selection, fill probability 1, uniform draws equal to 1 so no side
fills), `step_mm` completes normally and returns quotes computed from the
negative mid — it does not raise any error, let alone a `ValidationError`;
the source has no guard on the sign of the mid price. -/
theorem step_mm_accepts_negative_mid :
    step_mm (-1) (-1) 0 ⟨0, 0⟩ plainFillParams (fun _ => 1) 0 =
      .ok ({ bid := some (-9996 / 10000), ask := some (-10004 / 10000), filled := none },
        ⟨0, 0⟩, 2) ∧
    (-1 : ℝ) < 0 := by
  refine ⟨?_, by norm_num⟩
  norm_num [step_mm, quote_prices, quote_pair, spread_bps_for_regime, plainFillParams,
    buy_leg, sell_leg, fill_probability, adjust_bid, adjust_ask, toxicity, Real.exp_zero]

/-- C4 amended: `step_mm` never raises a `ValidationError` — for every mid,
including zero and negative ones, it either completes normally or raises
the `ConfigurationError` of an unrecognized kill-switch mode.  (The Python
code divides by the unguarded mid, so with numpy scalars a zero mid
propagates `nan` through the quotes silently.) -/
theorem step_mm_never_validation_error (mid mid_next : ℝ) (regime : ℤ) (st : MMState)
    (params : MMParams) (rng : ℕ → ℝ) (k : ℕ) :
    (∃ out, step_mm mid mid_next regime st params rng k = .ok out) ∨
    step_mm mid mid_next regime st params rng k = .error .configurationError := by
  rcases hq : quote_prices mid regime st params with e | q
  · right
    have he := quote_prices_error_elim mid regime st params e hq
    subst he
    simp [step_mm, hq]
  · left
    rcases q with _ | ⟨bid, ask⟩ <;>
      (unfold step_mm; rw [hq]; exact ⟨_, rfl⟩)

/-- C6: `fill_probability` equals `base_fill_prob · exp(−kappa · d · 1000)`
clamped to `[0, 1]`, where `d = |quote − mid| / mid` (the source's scaling
`10_000.0 / 10.0` is exactly 1000); its value lies in `[0, 1]`; and for a
positive mid and non-negative `kappa` it is monotonically non-increasing in
the distance of the quote from the mid. -/
theorem fill_probability_decay (mid quote : ℝ) (params : MMParams) (hmid : 0 < mid) :
    fill_probability mid quote params =
      min (max (params.base_fill_prob *
        Real.exp (-(params.kappa * (|quote - mid| / mid) * 1000))) 0) 1 ∧
    0 ≤ fill_probability mid quote params ∧
    fill_probability mid quote params ≤ 1 ∧
    ∀ quote2 : ℝ, 0 ≤ params.kappa → |quote - mid| ≤ |quote2 - mid| →
      fill_probability mid quote2 params ≤ fill_probability mid quote params := by
  have harg : ∀ q : ℝ,
      -params.kappa * (|q - mid| / mid) * 10000 / 10 =
        -(params.kappa * (|q - mid| / mid) * 1000) := fun q => by ring
  refine ⟨?_, ?_, ?_, ?_⟩
  · simp only [fill_probability]
    rw [harg]
  · exact le_min (le_max_right _ 0) zero_le_one
  · exact min_le_right _ 1
  · intro quote2 hk habs
    have hd : |quote - mid| / mid ≤ |quote2 - mid| / mid := by gcongr
    have hexp : Real.exp (-params.kappa * (|quote2 - mid| / mid) * 10000 / 10) ≤
        Real.exp (-params.kappa * (|quote - mid| / mid) * 10000 / 10) := by
      apply Real.exp_le_exp.mpr
      nlinarith [mul_le_mul_of_nonneg_left hd hk]
    rcases le_or_lt 0 params.base_fill_prob with hb | hb
    · simp only [fill_probability]
      exact min_le_min (max_le_max (mul_le_mul_of_nonneg_left hexp hb) le_rfl) le_rfl
    · have e1pos := Real.exp_pos (-params.kappa * (|quote - mid| / mid) * 10000 / 10)
      have e2pos := Real.exp_pos (-params.kappa * (|quote2 - mid| / mid) * 10000 / 10)
      have h1 : params.base_fill_prob *
          Real.exp (-params.kappa * (|quote - mid| / mid) * 10000 / 10) ≤ 0 := by nlinarith
      have h2 : params.base_fill_prob *
          Real.exp (-params.kappa * (|quote2 - mid| / mid) * 10000 / 10) ≤ 0 := by nlinarith
      simp only [fill_probability]
      rw [max_eq_right h1, max_eq_right h2]

/-- Witness for C6 with the default parameters at mid 100: the quote at 99
(distance 1) fills no more often than the quote at the mid itself, and the
probability is non-negative. -/
theorem fill_probability_decay_witness :
    fill_probability 100 99 defaultMMParams ≤ fill_probability 100 100 defaultMMParams ∧
    0 ≤ fill_probability 100 100 defaultMMParams :=
  ⟨(fill_probability_decay 100 100 defaultMMParams (by norm_num)).2.2.2 99
      (by norm_num [defaultMMParams]) (by norm_num),
    (fill_probability_decay 100 100 defaultMMParams (by norm_num)).2.1⟩

/-- Unfolding equation for `step_mm` when quoting is enabled. -/
theorem step_mm_eq_of_quote_some (mid mid_next : ℝ) (regime : ℤ) (st : MMState)
    (params : MMParams) (rng : ℕ → ℝ) (k : ℕ) (bid ask : ℝ)
    (hq : quote_prices mid regime st params = .ok (some (bid, ask))) :
    step_mm mid mid_next regime st params rng k =
      (let ret_next := if params.adverse_selection then (mid_next - mid) / mid else 0
       let tox := toxicity params regime
       let b := buy_leg mid bid ret_next tox st params rng k
       let s := sell_leg mid ask ret_next tox st b.1 params rng b.2.2
       .ok ({ bid := some bid, ask := some ask,
              filled :=
                match b.2.1, s.2.1 with
                | true, true => some Fill.buySell
                | true, false => some Fill.buy
                | false, true => some Fill.sell
                | false, false => none }, s.1, s.2.2)) := by
  unfold step_mm
  rw [hq]

/-- Case analysis on the buy leg: either the buy filled (inventory up one
unit, admitted because inventory was below the cap) or the state is
untouched. -/
theorem buy_leg_spec (mid bid ret tox : ℝ) (st : MMState) (params : MMParams)
    (rng : ℕ → ℝ) (k : ℕ) :
    ((buy_leg mid bid ret tox st params rng k).2.1 = true ∧
      (buy_leg mid bid ret tox st params rng k).1.inv = st.inv + 1 ∧
      st.inv < params.inv_cap) ∨
    ((buy_leg mid bid ret tox st params rng k).2.1 = false ∧
      (buy_leg mid bid ret tox st params rng k).1 = st) := by
  unfold buy_leg
  split_ifs with h1 h2
  · exact Or.inl ⟨rfl, rfl, h1⟩
  · exact Or.inr ⟨rfl, rfl⟩
  · exact Or.inr ⟨rfl, rfl⟩

/-- Case analysis on the sell leg: either the sell filled (inventory down
one unit, admitted because the pre-step inventory `st0.inv` was above the
negative cap) or the post-buy state `st1` is passed through untouched. -/
theorem sell_leg_spec (mid ask ret tox : ℝ) (st0 st1 : MMState) (params : MMParams)
    (rng : ℕ → ℝ) (k1 : ℕ) :
    ((sell_leg mid ask ret tox st0 st1 params rng k1).2.1 = true ∧
      (sell_leg mid ask ret tox st0 st1 params rng k1).1.inv = st1.inv - 1 ∧
      -params.inv_cap < st0.inv) ∨
    ((sell_leg mid ask ret tox st0 st1 params rng k1).2.1 = false ∧
      (sell_leg mid ask ret tox st0 st1 params rng k1).1 = st1) := by
  unfold sell_leg
  split_ifs with h1 h2
  · exact Or.inl ⟨rfl, rfl, h1⟩
  · exact Or.inr ⟨rfl, rfl⟩
  · exact Or.inr ⟨rfl, rfl⟩

/-- Complete case analysis of one successful `step_mm`: the fill outcome
determines the inventory change (+1 buy, −1 sell, 0 otherwise) and records
the admission-control guard that held before the step. -/
theorem step_mm_inv_cases (mid mid_next : ℝ) (regime : ℤ) (st : MMState) (params : MMParams)
    (rng : ℕ → ℝ) (k : ℕ) (rec : StepRecord) (st' : MMState) (k' : ℕ)
    (h : step_mm mid mid_next regime st params rng k = .ok (rec, st', k')) :
    (rec.filled = none ∧ st'.inv = st.inv) ∨
    (rec.filled = some Fill.buy ∧ st'.inv = st.inv + 1 ∧ st.inv < params.inv_cap) ∨
    (rec.filled = some Fill.sell ∧ st'.inv = st.inv - 1 ∧ -params.inv_cap < st.inv) ∨
    (rec.filled = some Fill.buySell ∧ st'.inv = st.inv ∧
      st.inv < params.inv_cap ∧ -params.inv_cap < st.inv) := by
  rcases hq : quote_prices mid regime st params with e | q
  · unfold step_mm at h
    simp only [hq] at h
    exact Except.noConfusion h
  · rcases q with _ | ⟨bid, ask⟩
    · unfold step_mm at h
      simp only [hq, Except.ok.injEq, Prod.mk.injEq] at h
      obtain ⟨h1, h2, h3⟩ := h
      subst h1
      subst h2
      exact Or.inl ⟨rfl, rfl⟩
    · rw [step_mm_eq_of_quote_some mid mid_next regime st params rng k bid ask hq] at h
      simp only [Except.ok.injEq, Prod.mk.injEq] at h
      obtain ⟨h1, h2, h3⟩ := h
      subst h1
      subst h2
      rcases buy_leg_spec mid bid
          (if params.adverse_selection then (mid_next - mid) / mid else 0)
          (toxicity params regime) st params rng k with ⟨hb1, hb2, hb3⟩ | ⟨hb1, hb2⟩ <;>
        rcases sell_leg_spec mid ask
          (if params.adverse_selection then (mid_next - mid) / mid else 0)
          (toxicity params regime) st
          (buy_leg mid bid (if params.adverse_selection then (mid_next - mid) / mid else 0)
            (toxicity params regime) st params rng k).1 params rng
          (buy_leg mid bid (if params.adverse_selection then (mid_next - mid) / mid else 0)
            (toxicity params regime) st params rng k).2.2 with ⟨hs1, hs2, hs3⟩ | ⟨hs1, hs2⟩
      · refine Or.inr (Or.inr (Or.inr ⟨?_, ?_, hb3, hs3⟩))
        · simp only [hb1, hs1]
        · rw [hs2, hb2]
          ring
      · refine Or.inr (Or.inl ⟨?_, ?_, hb3⟩)
        · simp only [hb1, hs1]
        · rw [hs2, hb2]
      · refine Or.inr (Or.inr (Or.inl ⟨?_, ?_, hs3⟩))
        · simp only [hb1, hs1]
        · rw [hs2, hb2]
      · refine Or.inl ⟨?_, ?_⟩
        · simp only [hb1, hs1]
        · rw [hs2, hb2]

/-- One successful step preserves integrality of the inventory and, when
the cap is the natural number `n`, keeps the inventory inside
`[-inv_cap, inv_cap]`. -/
theorem step_mm_preserves_box (mid mid_next : ℝ) (regime : ℤ) (st : MMState)
    (params : MMParams) (rng : ℕ → ℝ) (k : ℕ) (rec : StepRecord) (st' : MMState) (k' : ℕ)
    (n : ℕ) (hcap : params.inv_cap = n)
    (hm : ∃ m : ℤ, st.inv = m)
    (hlo : -params.inv_cap ≤ st.inv) (hhi : st.inv ≤ params.inv_cap)
    (h : step_mm mid mid_next regime st params rng k = .ok (rec, st', k')) :
    (∃ m : ℤ, st'.inv = m) ∧ -params.inv_cap ≤ st'.inv ∧ st'.inv ≤ params.inv_cap := by
  obtain ⟨m, hmval⟩ := hm
  rcases step_mm_inv_cases mid mid_next regime st params rng k rec st' k' h with
    ⟨_, h0⟩ | ⟨_, h1, hlt⟩ | ⟨_, h1, hgt⟩ | ⟨_, h0, _, _⟩
  · exact ⟨⟨m, h0 ▸ hmval⟩, h0 ▸ hlo, h0 ▸ hhi⟩
  · rw [hmval, hcap] at hlt
    have hmn : m < (n : ℤ) := by exact_mod_cast hlt
    have hmn1 : (m : ℝ) + 1 ≤ (n : ℝ) := by exact_mod_cast (by omega : m + 1 ≤ (n : ℤ))
    refine ⟨⟨m + 1, by rw [h1, hmval]; push_cast; ring⟩, ?_, ?_⟩
    · rw [h1]
      linarith [hlo]
    · rw [h1, hmval, hcap]
      exact hmn1
  · rw [hmval, hcap] at hgt
    have hmn : -(n : ℤ) < m := by exact_mod_cast hgt
    have hmn1 : -(n : ℝ) ≤ (m : ℝ) - 1 := by exact_mod_cast (by omega : -(n : ℤ) ≤ m - 1)
    refine ⟨⟨m - 1, by rw [h1, hmval]; push_cast; ring⟩, ?_, ?_⟩
    · rw [h1, hmval, hcap]
      exact hmn1
    · rw [h1]
      linarith [hhi]
  · exact ⟨⟨m, h0 ▸ hmval⟩, h0 ▸ hlo, h0 ▸ hhi⟩

/-- Any successful `run_steps` execution started from an integral in-box
state stays in the box `[-inv_cap, inv_cap]` when the cap is the natural
number `n`. -/
theorem run_steps_box (params : MMParams) (n : ℕ) (hcap : params.inv_cap = n)
    (steps : List (ℝ × ℝ × ℤ)) (rng : ℕ → ℝ) :
    ∀ (st : MMState) (k : ℕ), (∃ m : ℤ, st.inv = m) → -params.inv_cap ≤ st.inv →
      st.inv ≤ params.inv_cap → ∀ st' k',
      run_steps steps params rng st k = .ok (st', k') →
      -params.inv_cap ≤ st'.inv ∧ st'.inv ≤ params.inv_cap := by
  induction steps with
  | nil =>
    intro st k hm hlo hhi st' k' h
    unfold run_steps at h
    simp only [Except.ok.injEq, Prod.mk.injEq] at h
    obtain ⟨h1, h2⟩ := h
    subst h1
    exact ⟨hlo, hhi⟩
  | cons hd tl ih =>
    obtain ⟨mid, mid_next, regime⟩ := hd
    intro st k hm hlo hhi st' k' h
    unfold run_steps at h
    rcases hs : step_mm mid mid_next regime st params rng k with e | ⟨rec, st1, k1⟩
    · simp only [hs] at h
      exact Except.noConfusion h
    · simp only [hs] at h
      have hbox := step_mm_preserves_box mid mid_next regime st params rng k rec st1 k1
        n hcap hm hlo hhi hs
      exact ih st1 k1 hbox.1 hbox.2.1 hbox.2.2 st' k' h

/-- C1 amended: starting from cash 0 and inventory 0, when the inventory
cap is a positive integer `n` (as in every shipped configuration,
`inv_cap = 3.0`) every state reachable by applying `step_mm` has inventory
in `[-inv_cap, inv_cap]`; and, for any parameters whatsoever, a single
successful step changes inventory by exactly −1, 0, or +1 (0 when both
sides fill in the same step), a buy fill implies the pre-step inventory was
below `inv_cap`, and a sell fill implies it was above `-inv_cap`.  (For a
non-integer positive cap the box can be overshot by the fractional part:
see the counterexample with cap 5/2.) -/
theorem inventory_cap_invariant :
    (∀ (params : MMParams) (n : ℕ) (steps : List (ℝ × ℝ × ℤ)) (rng : ℕ → ℝ)
      (st' : MMState) (k' : ℕ), params.inv_cap = n → 0 < n →
      run_steps steps params rng ⟨0, 0⟩ 0 = .ok (st', k') →
      -params.inv_cap ≤ st'.inv ∧ st'.inv ≤ params.inv_cap) ∧
    (∀ (mid mid_next : ℝ) (regime : ℤ) (st : MMState) (params : MMParams) (rng : ℕ → ℝ)
      (k : ℕ) (rec : StepRecord) (st' : MMState) (k' : ℕ),
      step_mm mid mid_next regime st params rng k = .ok (rec, st', k') →
      (st'.inv - st.inv = 0 ∨ st'.inv - st.inv = 1 ∨ st'.inv - st.inv = -1) ∧
      ((rec.filled = some Fill.buy ∨ rec.filled = some Fill.buySell) →
        st.inv < params.inv_cap) ∧
      ((rec.filled = some Fill.sell ∨ rec.filled = some Fill.buySell) →
        -params.inv_cap < st.inv) ∧
      (rec.filled = some Fill.buySell → st'.inv = st.inv)) := by
  constructor
  · intro params n steps rng st' k' hcap hn h
    have h0 : (0 : ℝ) ≤ (n : ℝ) := by positivity
    exact run_steps_box params n hcap steps rng ⟨0, 0⟩ 0 ⟨0, by norm_num⟩
      (by simpa [hcap] using neg_nonpos_of_nonneg h0) (by simpa [hcap] using h0) st' k' h
  · intro mid mid_next regime st params rng k rec st' k' h
    rcases step_mm_inv_cases mid mid_next regime st params rng k rec st' k' h with
      ⟨hf, h0⟩ | ⟨hf, h1, hlt⟩ | ⟨hf, h1, hgt⟩ | ⟨hf, h0, hlt, hgt⟩
    · refine ⟨Or.inl (by rw [h0]; ring), ?_, ?_, ?_⟩ <;>
        (intro hc; rw [hf] at hc; simp at hc)
    · refine ⟨Or.inr (Or.inl (by rw [h1]; ring)), fun _ => hlt, ?_, ?_⟩ <;>
        (intro hc; rw [hf] at hc; simp at hc)
    · refine ⟨Or.inr (Or.inr (by rw [h1]; ring)), ?_, fun _ => hgt, ?_⟩ <;>
        (intro hc; rw [hf] at hc; simp at hc)
    · exact ⟨Or.inl (by rw [h0]; ring), fun _ => hlt, fun _ => hgt, fun _ => h0⟩

/-- Witness for the amended C1: the empty run keeps the start state inside
the default box, and a pause step (default parameters, regime 2) has zero
net inventory change. -/
theorem inventory_cap_invariant_witness :
    (-defaultMMParams.inv_cap ≤ (0 : ℝ) ∧ (0 : ℝ) ≤ defaultMMParams.inv_cap) ∧
    ((0 : ℝ) - 0 = 0 ∨ (0 : ℝ) - 0 = 1 ∨ (0 : ℝ) - 0 = -1) := by
  constructor
  · have h := inventory_cap_invariant.1 defaultMMParams 3 [] (fun _ => 0) ⟨0, 0⟩ 0
      (by norm_num [defaultMMParams]) (by norm_num) rfl
    simpa using h
  · have h := (inventory_cap_invariant.2 100 100 2 ⟨0, 0⟩ defaultMMParams (fun _ => 0) 0
      { bid := none, ask := none, filled := none } ⟨0, 0⟩ 0
      (by simp [step_mm, quote_prices, defaultMMParams])).1
    simpa using h

/-- C1 fails as stated for a non-integer positive cap: with `inv_cap = 5/2`
and three buy fills from (cash, inventory) = (0, 0), the run reaches
inventory 3, strictly above the cap, because the admission check
`inv < inv_cap` still admits a buy at inventory 2 < 5/2. -/
theorem fractional_cap_overshoot :
    run_steps [(100, 100, 0), (100, 100, 0), (100, 100, 0)] fracCapParams altStream ⟨0, 0⟩ 0 =
      .ok (⟨-29982 / 100, 3⟩, 6) ∧
    0 < fracCapParams.inv_cap ∧ fracCapParams.inv_cap < 3 := by
  refine ⟨?_, by norm_num [fracCapParams], by norm_num [fracCapParams]⟩
  norm_num [run_steps, step_mm, quote_prices, quote_pair, spread_bps_for_regime, buy_leg,
    sell_leg, fill_probability, adjust_bid, adjust_ask, toxicity, fracCapParams, altStream,
    Real.exp_zero]

/-- C8 amended: for parameter sets whose transition matrix passes
validation, whose start state is an in-range row index, with at least as
many volatilities as regimes, and with a positive initial price `s0`,
`simulate_markov_switching_gbm` returns a price path of length
`n_steps + 1` whose first element is exactly `s0` and whose elements are
all strictly positive (every later element is `s0 · exp(·)`). -/
theorem simulate_path_positive (n_steps : ℕ) (params : MSGBMParams) (start_state : ℕ)
    (choice : ℕ → ℕ) (normal : ℕ → ℝ)
    (hval : validate_transition params.transition = .ok ())
    (hstart : start_state < params.transition.length)
    (hsig : params.transition.length ≤ params.sigmas_annual.length)
    (hs0 : 0 < params.s0) :
    ∃ prices states sigmas_step,
      simulate_markov_switching_gbm n_steps params start_state choice normal =
        .ok (prices, states, sigmas_step) ∧
      prices.length = n_steps + 1 ∧
      prices.head? = some params.s0 ∧
      ∀ x ∈ prices, 0 < x := by
  have hsr : sample_regimes n_steps params.transition start_state choice =
      .ok ((List.range n_steps).map
        (chain_state start_state params.transition.length choice)) := by
    unfold sample_regimes
    rw [hval]
    simp [hstart]
  have hstates : ∀ s ∈ (List.range n_steps).map
      (chain_state start_state params.transition.length choice),
      s < params.sigmas_annual.length := by
    intro s hs
    rcases List.mem_map.mp hs with ⟨t, _, rfl⟩
    refine lt_of_lt_of_le ?_ hsig
    cases t with
    | zero => exact hstart
    | succ t => exact Nat.mod_lt _ (Nat.lt_of_le_of_lt (Nat.zero_le _) hstart)
  unfold simulate_markov_switching_gbm
  rw [hsr]
  simp only
  rw [if_neg (not_not_intro hstates)]
  refine ⟨_, _, _, rfl, ?_, rfl, ?_⟩
  · simp
  · intro x hx
    rcases List.mem_cons.mp hx with rfl | hx
    · exact hs0
    · rcases List.mem_map.mp hx with ⟨j, _, rfl⟩
      exact mul_pos hs0 (Real.exp_pos _)

/-- Witness for the amended C8: a one-step simulation with the one-regime
matrix produces a two-element, positive price path starting at 100. -/
theorem simulate_path_positive_witness :
    ∃ prices states sigmas_step,
      simulate_markov_switching_gbm 1 unitMSGBMParams 0 (fun _ => 0) (fun _ => 0) =
        .ok (prices, states, sigmas_step) ∧
      prices.length = 1 + 1 ∧
      prices.head? = some unitMSGBMParams.s0 ∧
      ∀ x ∈ prices, 0 < x :=
  simulate_path_positive 1 unitMSGBMParams 0 (fun _ => 0) (fun _ => 0)
    (by norm_num [validate_transition, unitMSGBMParams])
    (by norm_num [unitMSGBMParams]) (by norm_num [unitMSGBMParams])
    (by norm_num [unitMSGBMParams])

/-- C8 fails as stated: with the finite parameter set whose initial price
is −1 (and a perfectly valid transition matrix), the returned price path is
`[-1]` — its first element equals `s0` but it is not strictly positive, so
positivity does not hold for every finite parameter set. -/
theorem simulate_negative_initial_price :
    simulate_markov_switching_gbm 0 negStartMSGBMParams 0 (fun _ => 0) (fun _ => 0) =
      .ok ([-1], [], []) ∧ (-1 : ℝ) < 0 := by
  refine ⟨?_, by norm_num⟩
  unfold simulate_markov_switching_gbm sample_regimes
  norm_num [validate_transition, negStartMSGBMParams, chain_state]
